import Mathlib

/-!
Shallow embedding of `src/maro/communication/driver/zmq_driver.py` (class
`ZmqDriver`) and proofs about its specified behavior.

Modelling conventions:
* The mutable attribute `self._unicast_sender_dict` (the Peer Connection
  Table) is a `List (String × UnicastSender)` association list with Python
  dict assignment semantics (`assocSet`: replace the first matching key in
  place, otherwise append).
* Transport-level effects (zmq `connect`, `send_pyobj`, `poll`,
  `recv_pyobj`) are driven by oracles: a `some msg` oracle answer means the
  underlying call raises an exception whose `str()` is `msg`.
* A Python `raise` that escapes a method is modelled as a `some e` second
  component of the result; `try ... except Exception` blocks are translated
  explicitly, so the state reached before the raise is preserved (Python
  object mutation is not rolled back by an exception).
-/

namespace ZmqDriver

/-- pyzmq socket-type constants used by the source (`zmq.PULL`, `zmq.SUB`,
`zmq.PUSH`, `zmq.PUB`); the source compares `int(socket_type)` against the
first two in `connect`. -/
def PULL : Int := 7

/-- pyzmq `zmq.SUB` constant. -/
def SUB : Int := 2

/-- pyzmq `zmq.PUSH` constant. -/
def PUSH : Int := 8

/-- pyzmq `zmq.PUB` constant. -/
def PUB : Int := 1

/-- Python-level exceptions that can occur inside the driver's `try` blocks:
`SocketTypeError` raised by `connect`'s `else` branch, an underlying
transport error from a zmq call, or a `KeyError` from a failed dict lookup.
All of these derive from Python's `Exception`, so a blanket
`except Exception` catches each of them. -/
inductive PyExc where
  | socketTypeError (msg : String)
  | transportError (msg : String)
  | keyError (key : String)
deriving DecidableEq

/-- Python `str(e)` for the exceptions above (for a `KeyError`, `str`
yields the `repr` of the missing key, i.e. the key in quotes). -/
def PyExc.toStr : PyExc → String
  | .socketTypeError m => m
  | .transportError m => m
  | .keyError k => "'" ++ k ++ "'"

/-- The exception classes of `maro.utils.exception.communication_exception`
that escape (or are returned from) the driver's public methods. -/
inductive CommError where
  | PeersConnectionError (msg : String)
  | DriverReceiveError (msg : String)
  | DriverSendError (msg : String)
  | SocketTypeError (msg : String)
deriving DecidableEq

/-- A zmq.PUSH socket created in `connect`: its `SNDTIMEO` option and the
address it has been connected to (`none` until `connect(address)`
succeeds). A freshly created socket has the zmq default `SNDTIMEO` of -1. -/
structure UnicastSender where
  sndtimeo : Int
  connected : Option String
deriving DecidableEq

/-- Python dict assignment `d[k] = v` on an association list: replace the
first entry with key `k` in place, or append a new entry. -/
def assocSet {α : Type} (l : List (String × α)) (k : String) (v : α) : List (String × α) :=
  match l with
  | [] => [(k, v)]
  | (k', v') :: rest => if k' = k then (k, v) :: rest else (k', v') :: assocSet rest k v

/-- Python dict lookup `d.get(k)` on an association list. -/
def assocGet {α : Type} (l : List (String × α)) (k : String) : Option α :=
  match l with
  | [] => none
  | (k', v) :: rest => if k' = k then some v else assocGet rest k

/-- The keys of an association list, in order. -/
def keys {α : Type} (l : List (String × α)) : List String :=
  l.map Prod.fst

/-- The driver state relevant to the claims: the timeouts fixed at
construction and the mutable `self._unicast_sender_dict` (Peer Connection
Table) plus the list of addresses the shared `self._broadcast_sender`
(zmq.PUB) socket has been connected to. -/
structure DriverState where
  send_timeout : Int
  receive_timeout : Int
  unicast_sender_dict : List (String × UnicastSender)
  broadcast_connections : List String
deriving DecidableEq

/-- State after `__init__` / `_setup_sockets`: both inbound sockets are
bound and registered with the poller, and `self._unicast_sender_dict = {}`
(line 58 of the source); no broadcast connections exist yet. -/
def initState (sendT recvT : Int) : DriverState :=
  { send_timeout := sendT
  , receive_timeout := recvT
  , unicast_sender_dict := []
  , broadcast_connections := [] }

/-- Oracle for transport-level `connect(address)` calls: `some msg` means
the call raises an exception with `str(e) = msg`. -/
def ConnOracle : Type := String → Option String

/-- The body of one iteration of `connect`'s inner loop (the `try` block,
lines 97-107): returns the state reached and the Python exception raised,
if any. For a `zmq.PULL` entry the source first assigns a fresh zmq.PUSH
socket into the dict (line 99), then sets its `SNDTIMEO` (line 100), and
only then attempts the transport connection (line 101), so on a transport
failure the dict entry is already present. For a `zmq.SUB` entry the shared
broadcast sender is connected. Any other discriminator raises
`SocketTypeError` (line 107) from inside the `try`. -/
def connectEntry (oracle : ConnOracle) (st : DriverState) (peer : String)
    (sock : Int) (addr : String) : DriverState × Option PyExc :=
  if sock = PULL then
    let d1 := assocSet st.unicast_sender_dict peer { sndtimeo := -1, connected := none }
    let st1 := { st with unicast_sender_dict := d1 }
    let d2 := assocSet st1.unicast_sender_dict peer { sndtimeo := st.send_timeout, connected := none }
    let st2 := { st1 with unicast_sender_dict := d2 }
    match oracle addr with
    | some err => (st2, some (.transportError err))
    | none =>
      let d3 := assocSet st2.unicast_sender_dict peer { sndtimeo := st.send_timeout, connected := some addr }
      ({ st2 with unicast_sender_dict := d3 }, none)
  else if sock = SUB then
    match oracle addr with
    | some err => (st, some (.transportError err))
    | none => ({ st with broadcast_connections := st.broadcast_connections ++ [addr] }, none)
  else
    (st, some (.socketTypeError ("Unrecognized socket type " ++ toString sock ++ ".")))

/-- One iteration of `connect`'s inner loop including the
`except Exception` handler (lines 108-109): every Python exception raised
by the body — transport errors and the `SocketTypeError` alike — is caught
and re-raised as a `PeersConnectionError` wrapping the peer name and
`str(e)`. -/
def connectEntryCaught (oracle : ConnOracle) (st : DriverState) (peer : String)
    (sock : Int) (addr : String) : DriverState × Option CommError :=
  match connectEntry oracle st peer sock addr with
  | (st', none) => (st', none)
  | (st', some e) =>
    (st', some (.PeersConnectionError ("Driver cannot connect to " ++ peer ++ "! Due to " ++ e.toStr)))

/-- The inner `for socket_type, address in address_dict.items()` loop of
`connect` for one peer: entries are processed in order and a raised
`PeersConnectionError` aborts the loop. -/
def connectEntries (oracle : ConnOracle) (st : DriverState) (peer : String) :
    List (Int × String) → DriverState × Option CommError
  | [] => (st, none)
  | (sock, addr) :: rest =>
    match connectEntryCaught oracle st peer sock addr with
    | (st', none) => connectEntries oracle st' peer rest
    | (st', some e) => (st', some e)

/-- `ZmqDriver.connect` (lines 84-109): iterate over the peers address dict
in order; a raised `PeersConnectionError` aborts all further processing,
leaving the state reached so far in place. -/
def connect (oracle : ConnOracle) (st : DriverState) :
    List (String × List (Int × String)) → DriverState × Option CommError
  | [] => (st, none)
  | (peer, entries) :: rest =>
    match connectEntries oracle st peer entries with
    | (st', none) => connect oracle st' rest
    | (st', some e) => (st', some e)

/-- Messages as used by the driver: `send` reads `destination` and `tag`,
`receive` logs `source`; the payload is opaque. -/
structure Message where
  source : String
  destination : String
  tag : String
  payload : String
deriving DecidableEq

/-- Oracle for `send_pyobj` on a peer's unicast sender: `some msg` means
the write raises (failure or timeout) with `str(e) = msg`. -/
def SendOracle : Type := String → Option String

/-- The `try` block of `ZmqDriver.send` (lines 143-145): look up
`message.destination` in `self._unicast_sender_dict` (a missing key raises
`KeyError`) and write the message (which may raise a transport error). -/
def sendBody (oracle : SendOracle) (st : DriverState) (m : Message) : Option PyExc :=
  match assocGet st.unicast_sender_dict m.destination with
  | none => some (.keyError m.destination)
  | some _ =>
    match oracle m.destination with
    | some err => some (.transportError err)
    | none => none

/-- `ZmqDriver.send` (lines 136-147): on success the method falls off the
end and returns `None` (here `none`); any exception is caught by
`except Exception` and a `DriverSendError` is RETURNED as a value — by
construction nothing is raised. -/
def send (oracle : SendOracle) (st : DriverState) (m : Message) : Option CommError :=
  match sendBody oracle st m with
  | none => none
  | some e => some (.DriverSendError ("Failure to send message caused by: " ++ e.toStr))

/-- `ZmqDriver.broadcast` (lines 149-160): write to the shared zmq.PUB
socket; the oracle argument (`some msg` = the write raises) decides
failure. On success returns `None`; on failure a `DriverSendError` is
returned as a value, never raised. -/
def broadcast (bOracle : Option String) (_st : DriverState) (_m : Message) : Option CommError :=
  match bOracle with
  | none => none
  | some err => some (.DriverSendError ("Failure to broadcast message caused by: " ++ err))

/-- Result of one `self._poller.poll(self._receive_timeout)` call:
either the poll itself raises, or it returns the set of ready inbound
sockets — `ready false false` is the dict returned empty, i.e. the receive
timeout elapsed with no data available. -/
inductive PollResult where
  | fail (msg : String)
  | ready (unicast broadcast : Bool)
deriving DecidableEq

/-- Environment driving `receive`: the outcome of the n-th poll call, the
message returned by the n-th `recv_pyobj` on the unicast receiver, and the
message returned by the n-th `recv_pyobj` on the broadcast receiver —
`none` meaning that blocking call never returns (no broadcast message ever
arrives; the sockets have no `RCVTIMEO` set, so `recv_pyobj` blocks
indefinitely). -/
structure RecvEnv where
  poll : Nat → PollResult
  unicastRecv : Nat → Message
  broadcastRecv : Nat → Option Message

/-- How many poll / unicast-recv / broadcast-recv calls `receive` has made
so far. -/
structure RecvCounters where
  polls : Nat
  urecvs : Nat
  brecvs : Nat
deriving DecidableEq

/-- How a (fuel-bounded) run of the `receive` generator ended:
still looping when the fuel ran out, returned normally via `break`,
raised a `DriverReceiveError`, or stuck forever inside a blocking
`recv_pyobj` on the broadcast receiver. -/
inductive RunStatus where
  | running
  | stopped
  | raised (e : CommError)
  | blocked
deriving DecidableEq

/-- `ZmqDriver.receive` (lines 111-134), run for at most `fuel` loop
iterations: poll (line 120; a poll exception becomes a raised
`DriverReceiveError`, line 122); then — exactly as the source — if the
unicast receiver is among the ready sockets, `recv_pyobj` from it
(line 125), OTHERWISE `recv_pyobj` from the broadcast receiver (line 128)
regardless of whether it was ready (the broadcast readiness flag is unused,
as in the source); yield the message; `break` when `is_continuous` is
false (lines 133-134). Returns the yielded messages in order, how the run
ended, and the final call counters. -/
def receive (env : RecvEnv) (is_continuous : Bool) :
    Nat → RecvCounters → List Message × RunStatus × RecvCounters
  | 0, s => ([], .running, s)
  | fuel+1, s =>
    match env.poll s.polls with
    | .fail msg =>
      ([], .raised (.DriverReceiveError ("Driver cannot receive message as " ++ msg)),
       { s with polls := s.polls + 1 })
    | .ready u _b =>
      let s1 : RecvCounters := { s with polls := s.polls + 1 }
      if u then
        let m := env.unicastRecv s1.urecvs
        let s2 := { s1 with urecvs := s1.urecvs + 1 }
        if is_continuous then
          let r := receive env is_continuous fuel s2
          (m :: r.1, r.2.1, r.2.2)
        else ([m], .stopped, s2)
      else
        match env.broadcastRecv s1.brecvs with
        | none => ([], .blocked, s1)
        | some m =>
          let s2 := { s1 with brecvs := s1.brecvs + 1 }
          if is_continuous then
            let r := receive env is_continuous fuel s2
            (m :: r.1, r.2.1, r.2.2)
          else ([m], .stopped, s2)

/-- One public operation on a constructed driver, with the oracles for its
transport effects. -/
inductive Op where
  | connectOp (oracle : ConnOracle) (peers : List (String × List (Int × String)))
  | sendOp (oracle : SendOracle) (m : Message)
  | broadcastOp (bOracle : Option String) (m : Message)
  | receiveOp (is_continuous : Bool)

/-- Effect of one operation on the driver state. `connect` is the only
method of the source that assigns into `self._unicast_sender_dict` or
connects the broadcast sender; `send`, `broadcast` and `receive` read but
never mutate this state. -/
def applyOp (st : DriverState) : Op → DriverState
  | .connectOp oracle peers => (connect oracle st peers).1
  | .sendOp _ _ => st
  | .broadcastOp _ _ => st
  | .receiveOp _ => st

/-- Driver state after construction followed by an arbitrary sequence of
operations. -/
def runOps (sendT recvT : Int) (ops : List Op) : DriverState :=
  ops.foldl applyOp (initState sendT recvT)

/-! Concrete inputs used to evaluate the model in counterexamples and
witnesses. -/

/-- An oracle under which every transport-level call succeeds. -/
def okOracle : ConnOracle := fun _ => none

/-- An oracle under which connecting to the address "tcp://bad" raises an
exception with message "boom" and every other call succeeds. -/
def failOracle : ConnOracle := fun a => if a = "tcp://bad" then some "boom" else none

/-- A send oracle under which every write succeeds. -/
def okSendOracle : SendOracle := fun _ => none

/-- A send oracle under which every write raises with message "timeout". -/
def badSendOracle : SendOracle := fun _ => some "timeout"

/-- A sample inbound unicast message. -/
def msgA : Message :=
  { source := "peerA", destination := "me", tag := "experience", payload := "pa" }

/-- A sample inbound broadcast message. -/
def msgB : Message :=
  { source := "peerB", destination := "all", tag := "checkout", payload := "pb" }

/-- A sample outbound message addressed to peer "p1". -/
def msgOut : Message :=
  { source := "me", destination := "p1", tag := "action", payload := "po" }

/-- Environment in which the first poll times out with no data (`ready
false false`), every later poll reports the unicast receiver ready, and no
broadcast message ever arrives. -/
def timeoutThenUnicastEnv : RecvEnv :=
  { poll := fun n => if n = 0 then .ready false false else .ready true false
  , unicastRecv := fun _ => msgA
  , broadcastRecv := fun _ => none }

/-- Environment in which every poll reports both receivers ready. -/
def bothReadyEnv : RecvEnv :=
  { poll := fun _ => .ready true true
  , unicastRecv := fun _ => msgA
  , broadcastRecv := fun _ => some msgB }

/-- Environment in which every poll reports only the broadcast receiver
ready. -/
def broadcastOnlyEnv : RecvEnv :=
  { poll := fun _ => .ready false true
  , unicastRecv := fun _ => msgA
  , broadcastRecv := fun _ => some msgB }

/-- A sample operation sequence: one successful `connect` registering peer
"p1" with a unicast address. -/
def opsEx : List Op := [Op.connectOp okOracle [("p1", [(PULL, "tcp://a")])]]

/-- Driver state with peer "p1" in the Peer Connection Table (the state
`opsEx` reaches). -/
def stWithP1 : DriverState := runOps 1000 2000 opsEx

/-- The broadcast (`zmq.SUB`) addresses supplied by a peers address map, in
processing order: on a fully successful `connect` these are exactly the
addresses the shared broadcast sender is additionally connected to — one
subscriber connection per supplied broadcast address. -/
def subAddresses : List (String × List (Int × String)) → List String
  | [] => []
  | (_, entries) :: rest =>
    ((entries.filter (fun en => en.1 == SUB)).map Prod.snd) ++ subAddresses rest

/-- A sample peers address map with one unicast-supplying peer and one
broadcast-only peer. -/
def c3Peers : List (String × List (Int × String)) :=
  [("p1", [(PULL, "tcp://a")]), ("pb", [(SUB, "tcp://b")])]

/-! Lemmas about the association-list dictionary operations. -/

theorem assocGet_assocSet_self {α : Type} (l : List (String × α)) (k : String) (v : α) :
    assocGet (assocSet l k v) k = some v := by
  induction l with
  | nil => simp [assocSet, assocGet]
  | cons hd tl ih =>
    obtain ⟨k', v'⟩ := hd
    by_cases h : k' = k
    · simp [assocSet, assocGet, h]
    · simp [assocSet, assocGet, h, ih]

theorem keys_nil {α : Type} : keys ([] : List (String × α)) = [] := rfl

theorem keys_cons {α : Type} (p : String × α) (tl : List (String × α)) :
    keys (p :: tl) = p.1 :: keys tl := rfl

theorem assocGet_assocSet_ne {α : Type} (l : List (String × α)) (k q : String) (v : α)
    (h : q ≠ k) : assocGet (assocSet l k v) q = assocGet l q := by
  have h' : ¬ k = q := fun hh => h hh.symm
  induction l with
  | nil => simp [assocSet, assocGet, h']
  | cons hd tl ih =>
    obtain ⟨k', v'⟩ := hd
    by_cases hk : k' = k
    · subst hk
      simp [assocSet, assocGet, h']
    · simp only [assocSet, if_neg hk, assocGet]
      by_cases hq : k' = q
      · simp [hq]
      · simp [hq, ih]

theorem keys_assocSet {α : Type} (l : List (String × α)) (k : String) (v : α) :
    keys (assocSet l k v) = if k ∈ keys l then keys l else keys l ++ [k] := by
  induction l with
  | nil => simp [assocSet, keys]
  | cons hd tl ih =>
    obtain ⟨k', v'⟩ := hd
    by_cases h : k' = k
    · subst h
      simp [assocSet, keys_cons]
    · have h2 : ¬ k = k' := fun hh => h hh.symm
      simp only [assocSet, if_neg h, keys_cons, List.mem_cons, h2, false_or, ih]
      by_cases hm : k ∈ keys tl
      · simp [hm]
      · simp [hm]

theorem mem_keys_assocSet_self {α : Type} (l : List (String × α)) (k : String) (v : α) :
    k ∈ keys (assocSet l k v) := by
  rw [keys_assocSet]
  by_cases hm : k ∈ keys l <;> simp [hm]

theorem mem_keys_assocSet_of_mem {α : Type} {l : List (String × α)} {q : String}
    (k : String) (v : α) (h : q ∈ keys l) : q ∈ keys (assocSet l k v) := by
  rw [keys_assocSet]
  by_cases hm : k ∈ keys l <;> simp [hm, h]

theorem keys_nodup_assocSet {α : Type} {l : List (String × α)} (k : String) (v : α)
    (h : (keys l).Nodup) : (keys (assocSet l k v)).Nodup := by
  rw [keys_assocSet]
  by_cases hm : k ∈ keys l
  · simpa [hm]
  · rw [if_neg hm]
    refine h.append (List.nodup_singleton k) ?_
    intro a ha hb
    rw [List.mem_singleton] at hb
    subst hb
    exact hm ha

theorem nodup_keys_unique {α : Type} {l : List (String × α)} (h : (keys l).Nodup)
    {k : String} {v1 v2 : α} (h1 : (k, v1) ∈ l) (h2 : (k, v2) ∈ l) : v1 = v2 := by
  induction l with
  | nil => cases h1
  | cons hd tl ih =>
    obtain ⟨k', v'⟩ := hd
    rw [keys_cons, List.nodup_cons] at h
    rcases List.mem_cons.mp h1 with e1 | m1
    · rcases List.mem_cons.mp h2 with e2 | m2
      · rw [Prod.mk.injEq] at e1 e2
        rw [e1.2, e2.2]
      · exfalso
        apply h.1
        rw [Prod.mk.injEq] at e1
        rw [← e1.1]
        exact List.mem_map.mpr ⟨(k, v2), m2, rfl⟩
    · rcases List.mem_cons.mp h2 with e2 | m2
      · exfalso
        apply h.1
        rw [Prod.mk.injEq] at e2
        rw [← e2.1]
        exact List.mem_map.mpr ⟨(k, v1), m1, rfl⟩
      · exact ih h.2 m1 m2

/-! Lemmas about the behavior of `connect`. -/

theorem connectEntry_fst_nodup (oracle : ConnOracle) (st : DriverState) (peer : String)
    (sock : Int) (addr : String) (h : (keys st.unicast_sender_dict).Nodup) :
    (keys (connectEntry oracle st peer sock addr).1.unicast_sender_dict).Nodup := by
  by_cases h1 : sock = PULL
  · cases ho : oracle addr with
    | none =>
      simp only [connectEntry, if_pos h1, ho]
      exact keys_nodup_assocSet _ _ (keys_nodup_assocSet _ _ (keys_nodup_assocSet _ _ h))
    | some err =>
      simp only [connectEntry, if_pos h1, ho]
      exact keys_nodup_assocSet _ _ (keys_nodup_assocSet _ _ h)
  · by_cases h2 : sock = SUB
    · cases ho : oracle addr with
      | none => simp only [connectEntry, if_neg h1, if_pos h2, ho]; exact h
      | some err => simp only [connectEntry, if_neg h1, if_pos h2, ho]; exact h
    · simp only [connectEntry, if_neg h1, if_neg h2]
      exact h

theorem connectEntry_mem_keys (oracle : ConnOracle) (st : DriverState) (peer : String)
    (sock : Int) (addr : String) {q : String} (h : q ∈ keys st.unicast_sender_dict) :
    q ∈ keys (connectEntry oracle st peer sock addr).1.unicast_sender_dict := by
  by_cases h1 : sock = PULL
  · cases ho : oracle addr with
    | none =>
      simp only [connectEntry, if_pos h1, ho]
      exact mem_keys_assocSet_of_mem _ _ (mem_keys_assocSet_of_mem _ _ (mem_keys_assocSet_of_mem _ _ h))
    | some err =>
      simp only [connectEntry, if_pos h1, ho]
      exact mem_keys_assocSet_of_mem _ _ (mem_keys_assocSet_of_mem _ _ h)
  · by_cases h2 : sock = SUB
    · cases ho : oracle addr with
      | none => simp only [connectEntry, if_neg h1, if_pos h2, ho]; exact h
      | some err => simp only [connectEntry, if_neg h1, if_pos h2, ho]; exact h
    · simp only [connectEntry, if_neg h1, if_neg h2]
      exact h

theorem connectEntry_get_ne (oracle : ConnOracle) (st : DriverState) (peer : String)
    (sock : Int) (addr : String) {q : String} (h : q ≠ peer) :
    assocGet (connectEntry oracle st peer sock addr).1.unicast_sender_dict q =
      assocGet st.unicast_sender_dict q := by
  by_cases h1 : sock = PULL
  · cases ho : oracle addr with
    | none =>
      simp only [connectEntry, if_pos h1, ho]
      rw [assocGet_assocSet_ne _ _ _ _ h, assocGet_assocSet_ne _ _ _ _ h,
        assocGet_assocSet_ne _ _ _ _ h]
    | some err =>
      simp only [connectEntry, if_pos h1, ho]
      rw [assocGet_assocSet_ne _ _ _ _ h, assocGet_assocSet_ne _ _ _ _ h]
  · by_cases h2 : sock = SUB
    · cases ho : oracle addr with
      | none => simp only [connectEntry, if_neg h1, if_pos h2, ho]
      | some err => simp only [connectEntry, if_neg h1, if_pos h2, ho]
    · simp only [connectEntry, if_neg h1, if_neg h2]

theorem connectEntry_broadcast_extends (oracle : ConnOracle) (st : DriverState) (peer : String)
    (sock : Int) (addr : String) :
    ∃ t, (connectEntry oracle st peer sock addr).1.broadcast_connections =
      st.broadcast_connections ++ t := by
  by_cases h1 : sock = PULL
  · cases ho : oracle addr with
    | none => exact ⟨[], by simp only [connectEntry, if_pos h1, ho, List.append_nil]⟩
    | some err => exact ⟨[], by simp only [connectEntry, if_pos h1, ho, List.append_nil]⟩
  · by_cases h2 : sock = SUB
    · cases ho : oracle addr with
      | none => exact ⟨[addr], by simp only [connectEntry, if_neg h1, if_pos h2, ho]⟩
      | some err => exact ⟨[], by simp only [connectEntry, if_neg h1, if_pos h2, ho, List.append_nil]⟩
    · exact ⟨[], by simp only [connectEntry, if_neg h1, if_neg h2, List.append_nil]⟩

theorem connectEntryCaught_fst (oracle : ConnOracle) (st : DriverState) (peer : String)
    (sock : Int) (addr : String) :
    (connectEntryCaught oracle st peer sock addr).1 = (connectEntry oracle st peer sock addr).1 := by
  unfold connectEntryCaught
  cases he : connectEntry oracle st peer sock addr with
  | mk st' e => cases e <;> simp

theorem connectEntryCaught_snd_shape (oracle : ConnOracle) (st : DriverState) (peer : String)
    (sock : Int) (addr : String) {e : CommError}
    (h : (connectEntryCaught oracle st peer sock addr).2 = some e) :
    ∃ cause, e = .PeersConnectionError ("Driver cannot connect to " ++ peer ++ "! Due to " ++ cause) := by
  unfold connectEntryCaught at h
  cases he : connectEntry oracle st peer sock addr with
  | mk st' e0 =>
    rw [he] at h
    cases e0 with
    | none => simp at h
    | some e1 =>
      simp at h
      exact ⟨e1.toStr, h.symm⟩

theorem connectEntries_fst_nodup (oracle : ConnOracle) (peer : String)
    (entries : List (Int × String)) :
    ∀ st : DriverState, (keys st.unicast_sender_dict).Nodup →
      (keys (connectEntries oracle st peer entries).1.unicast_sender_dict).Nodup := by
  induction entries with
  | nil => intro st h; exact h
  | cons hd rest ih =>
    intro st h
    obtain ⟨sock, addr⟩ := hd
    have hstep := connectEntry_fst_nodup oracle st peer sock addr h
    rw [← connectEntryCaught_fst] at hstep
    unfold connectEntries
    cases hc : connectEntryCaught oracle st peer sock addr with
    | mk st' e =>
      rw [hc] at hstep
      cases e with
      | none => exact ih st' hstep
      | some e1 => exact hstep

theorem connectEntries_mem_keys (oracle : ConnOracle) (peer : String)
    (entries : List (Int × String)) :
    ∀ (st : DriverState) (q : String), q ∈ keys st.unicast_sender_dict →
      q ∈ keys (connectEntries oracle st peer entries).1.unicast_sender_dict := by
  induction entries with
  | nil => intro st q h; exact h
  | cons hd rest ih =>
    intro st q h
    obtain ⟨sock, addr⟩ := hd
    have hstep := connectEntry_mem_keys oracle st peer sock addr h
    rw [← connectEntryCaught_fst] at hstep
    unfold connectEntries
    cases hc : connectEntryCaught oracle st peer sock addr with
    | mk st' e =>
      rw [hc] at hstep
      cases e with
      | none => exact ih st' q hstep
      | some e1 => exact hstep

theorem connectEntries_get_ne (oracle : ConnOracle) (peer : String)
    (entries : List (Int × String)) :
    ∀ (st : DriverState) (q : String), q ≠ peer →
      assocGet (connectEntries oracle st peer entries).1.unicast_sender_dict q =
        assocGet st.unicast_sender_dict q := by
  induction entries with
  | nil => intro st q _; rfl
  | cons hd rest ih =>
    intro st q h
    obtain ⟨sock, addr⟩ := hd
    have hstep := connectEntry_get_ne oracle st peer sock addr h
    rw [← connectEntryCaught_fst] at hstep
    unfold connectEntries
    cases hc : connectEntryCaught oracle st peer sock addr with
    | mk st' e =>
      rw [hc] at hstep
      cases e with
      | none => rw [ih st' q h]; exact hstep
      | some e1 => exact hstep

theorem connectEntries_broadcast_extends (oracle : ConnOracle) (peer : String)
    (entries : List (Int × String)) :
    ∀ st : DriverState, ∃ t,
      (connectEntries oracle st peer entries).1.broadcast_connections =
        st.broadcast_connections ++ t := by
  induction entries with
  | nil => intro st; exact ⟨[], by simp [connectEntries]⟩
  | cons hd rest ih =>
    intro st
    obtain ⟨sock, addr⟩ := hd
    obtain ⟨t1, ht1⟩ := connectEntry_broadcast_extends oracle st peer sock addr
    rw [← connectEntryCaught_fst] at ht1
    unfold connectEntries
    cases hc : connectEntryCaught oracle st peer sock addr with
    | mk st' e =>
      rw [hc] at ht1
      cases e with
      | none =>
        obtain ⟨t2, ht2⟩ := ih st'
        exact ⟨t1 ++ t2, by rw [ht2, ht1, List.append_assoc]⟩
      | some e1 => exact ⟨t1, ht1⟩

theorem connectEntries_snd_shape (oracle : ConnOracle) (peer : String)
    (entries : List (Int × String)) :
    ∀ (st : DriverState) (e : CommError), (connectEntries oracle st peer entries).2 = some e →
      ∃ cause, e = .PeersConnectionError ("Driver cannot connect to " ++ peer ++ "! Due to " ++ cause) := by
  induction entries with
  | nil => intro st e h; simp [connectEntries] at h
  | cons hd rest ih =>
    intro st e h
    obtain ⟨sock, addr⟩ := hd
    unfold connectEntries at h
    cases hc : connectEntryCaught oracle st peer sock addr with
    | mk st' e0 =>
      rw [hc] at h
      cases e0 with
      | none => exact ih st' e h
      | some e1 =>
        simp at h
        subst h
        exact connectEntryCaught_snd_shape oracle st peer sock addr (by rw [hc])

theorem connectEntry_pull_mem (oracle : ConnOracle) (st : DriverState) (peer addr : String) :
    peer ∈ keys (connectEntry oracle st peer PULL addr).1.unicast_sender_dict := by
  cases ho : oracle addr with
  | none =>
    simp only [connectEntry, if_pos rfl, ho]
    exact mem_keys_assocSet_self _ _ _
  | some err =>
    simp only [connectEntry, if_pos rfl, ho]
    exact mem_keys_assocSet_self _ _ _

theorem connectEntries_pull_mem (oracle : ConnOracle) (peer : String)
    (entries : List (Int × String)) :
    ∀ (st : DriverState) (addr : String), (PULL, addr) ∈ entries →
      (connectEntries oracle st peer entries).2 = none →
      peer ∈ keys (connectEntries oracle st peer entries).1.unicast_sender_dict := by
  induction entries with
  | nil => intro st addr h _; cases h
  | cons hd rest ih =>
    intro st addr hmem hsucc
    obtain ⟨sock, a⟩ := hd
    unfold connectEntries at hsucc ⊢
    cases hc : connectEntryCaught oracle st peer sock a with
    | mk st' e =>
      rw [hc] at hsucc
      have hfst := connectEntryCaught_fst oracle st peer sock a
      rw [hc] at hfst
      cases e with
      | some e1 => simp at hsucc
      | none =>
        rcases List.mem_cons.mp hmem with he | hrest
        · rw [Prod.mk.injEq] at he
          have hfst2 : st' = (connectEntry oracle st peer sock a).1 := by simpa using hfst
          have hm : peer ∈ keys st'.unicast_sender_dict := by
            rw [hfst2, ← he.1]
            exact connectEntry_pull_mem oracle st peer a
          exact connectEntries_mem_keys oracle peer rest st' peer hm
        · exact ih st' addr hrest hsucc

theorem connect_cons (oracle : ConnOracle) (st : DriverState) (peer : String)
    (entries : List (Int × String)) (rest : List (String × List (Int × String))) :
    connect oracle st ((peer, entries) :: rest) =
      match connectEntries oracle st peer entries with
      | (st', none) => connect oracle st' rest
      | (st', some e) => (st', some e) := rfl

theorem connect_fst_nodup (oracle : ConnOracle) (peers : List (String × List (Int × String))) :
    ∀ st : DriverState, (keys st.unicast_sender_dict).Nodup →
      (keys (connect oracle st peers).1.unicast_sender_dict).Nodup := by
  induction peers with
  | nil => intro st h; exact h
  | cons hd rest ih =>
    intro st h
    obtain ⟨peer, entries⟩ := hd
    have hstep := connectEntries_fst_nodup oracle peer entries st h
    unfold connect
    cases hc : connectEntries oracle st peer entries with
    | mk st' e =>
      rw [hc] at hstep
      cases e with
      | none => exact ih st' hstep
      | some e1 => exact hstep

theorem connect_mem_keys (oracle : ConnOracle) (peers : List (String × List (Int × String))) :
    ∀ (st : DriverState) (q : String), q ∈ keys st.unicast_sender_dict →
      q ∈ keys (connect oracle st peers).1.unicast_sender_dict := by
  induction peers with
  | nil => intro st q h; exact h
  | cons hd rest ih =>
    intro st q h
    obtain ⟨peer, entries⟩ := hd
    have hstep := connectEntries_mem_keys oracle peer entries st q h
    unfold connect
    cases hc : connectEntries oracle st peer entries with
    | mk st' e =>
      rw [hc] at hstep
      cases e with
      | none => exact ih st' q hstep
      | some e1 => exact hstep

theorem connect_append (oracle : ConnOracle) (pre : List (String × List (Int × String))) :
    ∀ (st : DriverState) (rest : List (String × List (Int × String))),
      (connect oracle st pre).2 = none →
      connect oracle st (pre ++ rest) = connect oracle (connect oracle st pre).1 rest := by
  induction pre with
  | nil => intro st rest _; rfl
  | cons hd tl ih =>
    intro st rest h
    obtain ⟨peer, entries⟩ := hd
    rw [List.cons_append] at *
    rw [connect_cons, connect_cons]
    cases hc : connectEntries oracle st peer entries with
    | mk st' e =>
      rw [connect_cons, hc] at h
      cases e with
      | none => exact ih st' rest h
      | some e1 => simp at h

theorem not_mem_keys_assocSet {α : Type} {l : List (String × α)} {q k : String} (v : α)
    (hq : q ≠ k) (h : q ∉ keys l) : q ∉ keys (assocSet l k v) := by
  rw [keys_assocSet]
  by_cases hm : k ∈ keys l
  · simpa [hm] using h
  · simp [hm, h, hq]

theorem connectEntry_not_mem (oracle : ConnOracle) (st : DriverState) (peer : String)
    (sock : Int) (addr : String) {q : String} (hq : q ∉ keys st.unicast_sender_dict)
    (hne : sock = PULL → peer ≠ q) :
    q ∉ keys (connectEntry oracle st peer sock addr).1.unicast_sender_dict := by
  by_cases h1 : sock = PULL
  · have hpq : q ≠ peer := fun hh => (hne h1) hh.symm
    cases ho : oracle addr with
    | none =>
      simp only [connectEntry, if_pos h1, ho]
      exact not_mem_keys_assocSet _ hpq
        (not_mem_keys_assocSet _ hpq (not_mem_keys_assocSet _ hpq hq))
    | some err =>
      simp only [connectEntry, if_pos h1, ho]
      exact not_mem_keys_assocSet _ hpq (not_mem_keys_assocSet _ hpq hq)
  · by_cases h2 : sock = SUB
    · cases ho : oracle addr with
      | none => simp only [connectEntry, if_neg h1, if_pos h2, ho]; exact hq
      | some err => simp only [connectEntry, if_neg h1, if_pos h2, ho]; exact hq
    · simp only [connectEntry, if_neg h1, if_neg h2]
      exact hq

theorem connectEntries_not_mem (oracle : ConnOracle) (peer : String)
    (entries : List (Int × String)) :
    ∀ (st : DriverState) (q : String), q ∉ keys st.unicast_sender_dict →
      (peer = q → ∀ addr, (PULL, addr) ∉ entries) →
      q ∉ keys (connectEntries oracle st peer entries).1.unicast_sender_dict := by
  induction entries with
  | nil => intro st q hq _; exact hq
  | cons hd rest ih =>
    intro st q hq hnp
    obtain ⟨sock, a⟩ := hd
    have hstep : q ∉ keys (connectEntry oracle st peer sock a).1.unicast_sender_dict := by
      refine connectEntry_not_mem oracle st peer sock a hq ?_
      intro hsock hpq
      subst hsock
      exact (hnp hpq) a (List.mem_cons_self _ _)
    rw [← connectEntryCaught_fst] at hstep
    unfold connectEntries
    cases hc : connectEntryCaught oracle st peer sock a with
    | mk st' e =>
      rw [hc] at hstep
      cases e with
      | none =>
        refine ih st' q hstep ?_
        intro hpq addr hmem
        exact (hnp hpq) addr (List.mem_cons_of_mem _ hmem)
      | some e1 => exact hstep

theorem connect_not_mem (oracle : ConnOracle) (peers : List (String × List (Int × String))) :
    ∀ (st : DriverState) (q : String), q ∉ keys st.unicast_sender_dict →
      (∀ entries, (q, entries) ∈ peers → ∀ addr, (PULL, addr) ∉ entries) →
      q ∉ keys (connect oracle st peers).1.unicast_sender_dict := by
  induction peers with
  | nil => intro st q hq _; exact hq
  | cons hd tl ih =>
    intro st q hq hnp
    obtain ⟨p0, e0⟩ := hd
    have hstep : q ∉ keys (connectEntries oracle st p0 e0).1.unicast_sender_dict := by
      refine connectEntries_not_mem oracle p0 e0 st q hq ?_
      intro hpq addr
      subst hpq
      exact hnp e0 (List.mem_cons_self _ _) addr
    unfold connect
    cases hc : connectEntries oracle st p0 e0 with
    | mk st' e =>
      rw [hc] at hstep
      cases e with
      | none =>
        refine ih st' q hstep ?_
        intro entries hmem addr
        exact hnp entries (List.mem_cons_of_mem _ hmem) addr
      | some e1 => exact hstep

theorem connectEntryCaught_none_inner (oracle : ConnOracle) (st : DriverState) (peer : String)
    (sock : Int) (addr : String)
    (h : (connectEntryCaught oracle st peer sock addr).2 = none) :
    (connectEntry oracle st peer sock addr).2 = none := by
  unfold connectEntryCaught at h
  cases he : connectEntry oracle st peer sock addr with
  | mk st' e0 =>
    rw [he] at h
    cases e0 with
    | none => rfl
    | some e1 => simp at h

theorem connectEntry_broadcast_succ (oracle : ConnOracle) (st : DriverState) (peer : String)
    (sock : Int) (a : String)
    (hne : (connectEntry oracle st peer sock a).2 = none) :
    (connectEntry oracle st peer sock a).1.broadcast_connections =
      st.broadcast_connections ++ (if sock = SUB then [a] else []) := by
  by_cases h1 : sock = PULL
  · have h1' : ¬ sock = SUB := by rw [h1]; decide
    cases ho : oracle a with
    | none => simp [connectEntry, if_pos h1, ho, h1']
    | some err =>
      exfalso
      rw [show (connectEntry oracle st peer sock a).2 = some (.transportError err) by
        simp [connectEntry, if_pos h1, ho]] at hne
      exact Option.noConfusion hne
  · by_cases h2 : sock = SUB
    · cases ho : oracle a with
      | none => simp [connectEntry, if_neg h1, if_pos h2, ho]
      | some err =>
        exfalso
        rw [show (connectEntry oracle st peer sock a).2 = some (.transportError err) by
          simp [connectEntry, if_neg h1, if_pos h2, ho]] at hne
        exact Option.noConfusion hne
    · exfalso
      rw [show (connectEntry oracle st peer sock a).2 =
          some (.socketTypeError ("Unrecognized socket type " ++ toString sock ++ ".")) by
        simp [connectEntry, if_neg h1, if_neg h2]] at hne
      exact Option.noConfusion hne

theorem connectEntries_broadcast_eq (oracle : ConnOracle) (peer : String)
    (entries : List (Int × String)) :
    ∀ st : DriverState, (connectEntries oracle st peer entries).2 = none →
      (connectEntries oracle st peer entries).1.broadcast_connections =
        st.broadcast_connections ++ (entries.filter (fun en => en.1 == SUB)).map Prod.snd := by
  induction entries with
  | nil => intro st _; simp [connectEntries]
  | cons hd rest ih =>
    intro st hsucc
    obtain ⟨sock, a⟩ := hd
    unfold connectEntries at hsucc ⊢
    cases hc : connectEntryCaught oracle st peer sock a with
    | mk st' e =>
      rw [hc] at hsucc
      cases e with
      | some e1 => simp at hsucc
      | none =>
        have hinner : (connectEntry oracle st peer sock a).2 = none :=
          connectEntryCaught_none_inner oracle st peer sock a (by rw [hc])
        have hfst := connectEntryCaught_fst oracle st peer sock a
        rw [hc] at hfst
        have hfst2 : st' = (connectEntry oracle st peer sock a).1 := by simpa using hfst
        have hbs : st'.broadcast_connections =
            st.broadcast_connections ++ (if sock = SUB then [a] else []) := by
          rw [hfst2]
          exact connectEntry_broadcast_succ oracle st peer sock a hinner
        show (connectEntries oracle st' peer rest).1.broadcast_connections = _
        rw [ih st' hsucc, hbs, List.append_assoc]
        by_cases h2 : sock = SUB
        · subst h2
          simp [List.filter_cons]
        · have hb : (sock == SUB) = false := by
            simp only [beq_eq_false_iff_ne, ne_eq]
            exact h2
          simp [List.filter_cons, h2, hb]

theorem connect_broadcast_eq (oracle : ConnOracle) (peers : List (String × List (Int × String))) :
    ∀ st : DriverState, (connect oracle st peers).2 = none →
      (connect oracle st peers).1.broadcast_connections =
        st.broadcast_connections ++ subAddresses peers := by
  induction peers with
  | nil => intro st _; simp [connect, subAddresses]
  | cons hd tl ih =>
    intro st hsucc
    obtain ⟨p0, e0⟩ := hd
    rw [connect_cons] at hsucc ⊢
    cases hc : connectEntries oracle st p0 e0 with
    | mk st' e =>
      rw [hc] at hsucc
      cases e with
      | some e1 => simp at hsucc
      | none =>
        have hb := connectEntries_broadcast_eq oracle p0 e0 st (by rw [hc])
        rw [hc] at hb
        show (connect oracle st' tl).1.broadcast_connections = _
        rw [ih st' hsucc]
        have hb2 : st'.broadcast_connections =
            st.broadcast_connections ++ (e0.filter (fun en => en.1 == SUB)).map Prod.snd := by
          simpa using hb
        rw [hb2, subAddresses, List.append_assoc]

/-! Claim theorems. -/

/-- Claim C2 (counterexample): calling `connect` with the unrecognized
channel-kind discriminator 99 does NOT raise a `SocketTypeError`: the
`SocketTypeError` raised on line 107 is caught by the blanket
`except Exception` on line 108 and re-raised as a `PeersConnectionError`.
No unicast endpoint is registered for the peer. This refutes the claim
that the raised exception is a `SocketTypeError` and not some other
exception type. -/
theorem claim_c2_counterexample :
    (connect okOracle (initState 1000 1000) [("p1", [(99, "tcp://addr")])]).2 =
      some (CommError.PeersConnectionError
        ("Driver cannot connect to " ++ "p1" ++ "! Due to " ++
          ("Unrecognized socket type " ++ toString (99 : Int) ++ "."))) ∧
    (∀ m, (connect okOracle (initState 1000 1000) [("p1", [(99, "tcp://addr")])]).2 ≠
      some (CommError.SocketTypeError m)) ∧
    assocGet (connect okOracle (initState 1000 1000)
      [("p1", [(99, "tcp://addr")])]).1.unicast_sender_dict "p1" = none := by
  refine ⟨rfl, ?_, rfl⟩
  intro m hm
  have h2 := Option.some.inj ((show
    (connect okOracle (initState 1000 1000) [("p1", [(99, "tcp://addr")])]).2 =
      some (CommError.PeersConnectionError
        ("Driver cannot connect to " ++ "p1" ++ "! Due to " ++
          ("Unrecognized socket type " ++ toString (99 : Int) ++ "."))) from rfl).symm.trans hm)
  exact CommError.noConfusion h2

/-- Claim C2 (amended theorem): `connect` called with a channel-kind
discriminator that is neither the unicast kind (`zmq.PULL`) nor the
broadcast kind (`zmq.SUB`) raises a `PeersConnectionError` whose message
wraps the internal `SocketTypeError`'s message, and leaves the driver
state — in particular the Peer Connection Table — unchanged, so no
outbound unicast endpoint is registered for that peer. -/
theorem claim_c2_amended (oracle : ConnOracle) (st : DriverState) (peer addr : String)
    (sock : Int) (h1 : sock ≠ PULL) (h2 : sock ≠ SUB) :
    connect oracle st [(peer, [(sock, addr)])] =
      (st, some (CommError.PeersConnectionError
        ("Driver cannot connect to " ++ peer ++ "! Due to " ++
          ("Unrecognized socket type " ++ toString sock ++ ".")))) := by
  rw [connect_cons]
  have hc : connectEntries oracle st peer [(sock, addr)] =
      (st, some (CommError.PeersConnectionError
        ("Driver cannot connect to " ++ peer ++ "! Due to " ++
          ("Unrecognized socket type " ++ toString sock ++ ".")))) := by
    unfold connectEntries
    simp [connectEntryCaught, connectEntry, if_neg h1, if_neg h2, PyExc.toStr]
  rw [hc]

/-- Witness for the amended C2 theorem at discriminator 99. -/
theorem claim_c2_witness :
    ((99 : Int) ≠ PULL ∧ (99 : Int) ≠ SUB) ∧
    connect okOracle (initState 1000 1000) [("p1", [(99, "tcp://addr")])] =
      (initState 1000 1000, some (CommError.PeersConnectionError
        ("Driver cannot connect to " ++ "p1" ++ "! Due to " ++
          ("Unrecognized socket type " ++ toString (99 : Int) ++ ".")))) :=
  ⟨⟨by decide, by decide⟩,
    claim_c2_amended okOracle (initState 1000 1000) "p1" "tcp://addr" 99 (by decide) (by decide)⟩

/-- Claim C3 (counterexample): a peer supplying only a broadcast
(`zmq.SUB`) address is connected successfully, the broadcast sender gains
one subscriber connection, yet the Peer Connection Table contains NO entry
for that peer — refuting the claim that on success the table contains an
entry for every peer name supplied, including broadcast-only peers. -/
theorem claim_c3_counterexample :
    (connect okOracle (initState 1000 1000) [("pb", [(SUB, "tcp://baddr")])]).2 = none ∧
    assocGet (connect okOracle (initState 1000 1000)
      [("pb", [(SUB, "tcp://baddr")])]).1.unicast_sender_dict "pb" = none ∧
    (connect okOracle (initState 1000 1000)
      [("pb", [(SUB, "tcp://baddr")])]).1.broadcast_connections = ["tcp://baddr"] :=
  ⟨rfl, rfl, rfl⟩

/-- On a successful `connect`, every peer that supplied a `zmq.PULL`
address is in the Peer Connection Table afterwards. -/
theorem connect_pull_mem_of_success (oracle : ConnOracle)
    (peers : List (String × List (Int × String))) :
    ∀ st : DriverState, (connect oracle st peers).2 = none →
      ∀ (peer : String) (entries : List (Int × String)) (addr : String),
        (peer, entries) ∈ peers → (PULL, addr) ∈ entries →
        peer ∈ keys (connect oracle st peers).1.unicast_sender_dict := by
  induction peers with
  | nil => intro st _ peer entries addr hmem _; cases hmem
  | cons hd tl ih =>
    intro st hsucc peer entries addr hmem hpull
    obtain ⟨p0, e0⟩ := hd
    rw [connect_cons] at hsucc ⊢
    cases hc : connectEntries oracle st p0 e0 with
    | mk st' e =>
      rw [hc] at hsucc
      cases e with
      | some e1 => simp at hsucc
      | none =>
        rcases List.mem_cons.mp hmem with he | htl
        · rw [Prod.mk.injEq] at he
          obtain ⟨hp, hent⟩ := he
          subst hp
          subst hent
          have hm : peer ∈ keys st'.unicast_sender_dict := by
            have hk := connectEntries_pull_mem oracle peer entries st addr hpull (by rw [hc])
            rw [hc] at hk
            exact hk
          exact connect_mem_keys oracle tl st' peer hm
        · exact ih st' hsucc peer entries addr htl hpull

/-- Claim C3 (amended theorem): on a `connect` call that returns
successfully, (i) the Peer Connection Table contains an entry for every
peer that supplied a unicast (`zmq.PULL`) address; (ii) a peer name not
already in the table whose supplied entries contain no unicast address —
in particular a peer that supplied only a broadcast address — has NO table
entry afterwards; and (iii) the outbound-broadcast endpoint's connections
are extended by exactly the supplied broadcast addresses, one subscriber
connection per supplied broadcast address. -/
theorem claim_c3_amended (oracle : ConnOracle) (peers : List (String × List (Int × String))) :
    ∀ st : DriverState, (connect oracle st peers).2 = none →
      (∀ (peer : String) (entries : List (Int × String)) (addr : String),
        (peer, entries) ∈ peers → (PULL, addr) ∈ entries →
        peer ∈ keys (connect oracle st peers).1.unicast_sender_dict) ∧
      (∀ peer : String, peer ∉ keys st.unicast_sender_dict →
        (∀ entries, (peer, entries) ∈ peers → ∀ addr, (PULL, addr) ∉ entries) →
        peer ∉ keys (connect oracle st peers).1.unicast_sender_dict) ∧
      ((connect oracle st peers).1.broadcast_connections =
        st.broadcast_connections ++ subAddresses peers) := by
  intro st hsucc
  refine ⟨?_, ?_, ?_⟩
  · intro peer entries addr hmem hpull
    exact connect_pull_mem_of_success oracle peers st hsucc peer entries addr hmem hpull
  · intro peer hq hnp
    exact connect_not_mem oracle peers st peer hq hnp
  · exact connect_broadcast_eq oracle peers st hsucc

/-- Witness for the amended C3 theorem: after a successful `connect` of a
unicast-supplying peer and a broadcast-only peer, the first is in the
table, the second is not, and the broadcast sender gained exactly the
supplied broadcast address. -/
theorem claim_c3_witness :
    ((connect okOracle (initState 1000 1000) c3Peers).2 = none) ∧
    "p1" ∈ keys (connect okOracle (initState 1000 1000) c3Peers).1.unicast_sender_dict ∧
    "pb" ∉ keys (connect okOracle (initState 1000 1000) c3Peers).1.unicast_sender_dict ∧
    (connect okOracle (initState 1000 1000) c3Peers).1.broadcast_connections =
      (initState 1000 1000).broadcast_connections ++ subAddresses c3Peers := by
  refine ⟨by decide, ?_, ?_, ?_⟩
  · exact (claim_c3_amended okOracle c3Peers (initState 1000 1000) (by decide)).1
      "p1" [(PULL, "tcp://a")] "tcp://a" (by decide) (by decide)
  · refine (claim_c3_amended okOracle c3Peers (initState 1000 1000) (by decide)).2.1
      "pb" (by decide) ?_
    intro entries hmem addr hpull
    rcases List.mem_cons.mp hmem with h1 | h2
    · rw [Prod.mk.injEq] at h1
      exact absurd h1.1 (by decide)
    · rcases List.mem_cons.mp h2 with h3 | h4
      · rw [Prod.mk.injEq] at h3
        rw [h3.2] at hpull
        simp [PULL, SUB] at hpull
      · cases h4
  · exact (claim_c3_amended okOracle c3Peers (initState 1000 1000) (by decide)).2.2

/-- Claim C5: when, during `connect`, processing a peer's address entries
raises (any underlying connection failure included), then (i) the whole
call returns that raised error and the remaining peers are never
processed, (ii) the raised error is a `PeersConnectionError` naming the
failing peer and wrapping the underlying cause, (iii) the table entries of
every other peer — in particular all peers processed before the failure —
are exactly as they were before the failing peer was processed, and
(iv) the broadcast connections made so far remain in place (no rollback
across peers). -/
theorem claim_c5_peer_failure (oracle : ConnOracle) (st : DriverState)
    (pre post : List (String × List (Int × String))) (p : String)
    (entries : List (Int × String))
    (hpre : (connect oracle st pre).2 = none)
    (hfail : (connectEntries oracle (connect oracle st pre).1 p entries).2 ≠ none) :
    connect oracle st (pre ++ (p, entries) :: post) =
      connectEntries oracle (connect oracle st pre).1 p entries ∧
    (∃ cause, (connectEntries oracle (connect oracle st pre).1 p entries).2 =
      some (CommError.PeersConnectionError
        ("Driver cannot connect to " ++ p ++ "! Due to " ++ cause))) ∧
    (∀ q, q ≠ p →
      assocGet (connectEntries oracle (connect oracle st pre).1 p
          entries).1.unicast_sender_dict q =
        assocGet (connect oracle st pre).1.unicast_sender_dict q) ∧
    (∃ t, (connectEntries oracle (connect oracle st pre).1 p
        entries).1.broadcast_connections =
      (connect oracle st pre).1.broadcast_connections ++ t) := by
  refine ⟨?_, ?_, ?_, ?_⟩
  · rw [connect_append oracle pre st ((p, entries) :: post) hpre, connect_cons]
    cases hc : connectEntries oracle (connect oracle st pre).1 p entries with
    | mk st' e =>
      rw [hc] at hfail
      cases e with
      | none => simp at hfail
      | some e1 => rfl
  · cases hc : connectEntries oracle (connect oracle st pre).1 p entries with
    | mk st' e =>
      rw [hc] at hfail
      cases e with
      | none => simp at hfail
      | some e1 =>
        obtain ⟨cause, hcause⟩ :=
          connectEntries_snd_shape oracle p entries (connect oracle st pre).1 e1 (by rw [hc])
        exact ⟨cause, by rw [hcause]⟩
  · intro q hq
    exact connectEntries_get_ne oracle p entries (connect oracle st pre).1 q hq
  · exact connectEntries_broadcast_extends oracle p entries (connect oracle st pre).1

/-- Witness for C5: peer "a" connects, peer "b" fails on "tcp://bad",
peer "c" is never processed. -/
theorem claim_c5_witness :
    ((connect failOracle (initState 500 500) [("a", [(PULL, "tcp://a")])]).2 = none ∧
     (connectEntries failOracle
        (connect failOracle (initState 500 500) [("a", [(PULL, "tcp://a")])]).1
        "b" [(PULL, "tcp://bad")]).2 ≠ none) ∧
    (connect failOracle (initState 500 500)
        ([("a", [(PULL, "tcp://a")])] ++ ("b", [(PULL, "tcp://bad")]) ::
          [("c", [(PULL, "tcp://c")])]) =
      connectEntries failOracle
        (connect failOracle (initState 500 500) [("a", [(PULL, "tcp://a")])]).1
        "b" [(PULL, "tcp://bad")] ∧
    (∃ cause, (connectEntries failOracle
        (connect failOracle (initState 500 500) [("a", [(PULL, "tcp://a")])]).1
        "b" [(PULL, "tcp://bad")]).2 =
      some (CommError.PeersConnectionError
        ("Driver cannot connect to " ++ "b" ++ "! Due to " ++ cause))) ∧
    (∀ q, q ≠ "b" →
      assocGet (connectEntries failOracle
          (connect failOracle (initState 500 500) [("a", [(PULL, "tcp://a")])]).1
          "b" [(PULL, "tcp://bad")]).1.unicast_sender_dict q =
        assocGet (connect failOracle (initState 500 500)
          [("a", [(PULL, "tcp://a")])]).1.unicast_sender_dict q) ∧
    (∃ t, (connectEntries failOracle
        (connect failOracle (initState 500 500) [("a", [(PULL, "tcp://a")])]).1
        "b" [(PULL, "tcp://bad")]).1.broadcast_connections =
      (connect failOracle (initState 500 500)
        [("a", [(PULL, "tcp://a")])]).1.broadcast_connections ++ t)) :=
  ⟨⟨by decide, by decide⟩,
    claim_c5_peer_failure failOracle (initState 500 500)
      [("a", [(PULL, "tcp://a")])] [("c", [(PULL, "tcp://c")])] "b"
      [(PULL, "tcp://bad")] (by decide) (by decide)⟩

/-- Claim C9: during `connect`, for a unicast (`zmq.PULL`) address entry,
the table entry is created and its send timeout configured (lines 99-100)
BEFORE the transport connection is attempted (line 101); hence when the
connection attempt fails and `connect` raises a `PeersConnectionError`,
the Peer Connection Table already contains the entry for the failing peer
(configured with the send timeout, not connected), and it is not removed
on error. -/
theorem claim_c9_entry_before_connect (oracle : ConnOracle) (st : DriverState)
    (p addr cause : String) (rest : List (Int × String)) (h : oracle addr = some cause) :
    (connect oracle st [(p, (PULL, addr) :: rest)]).2 =
      some (CommError.PeersConnectionError
        ("Driver cannot connect to " ++ p ++ "! Due to " ++ cause)) ∧
    assocGet (connect oracle st
        [(p, (PULL, addr) :: rest)]).1.unicast_sender_dict p =
      some { sndtimeo := st.send_timeout, connected := none } := by
  have hentries : connectEntries oracle st p ((PULL, addr) :: rest) =
      ({ st with unicast_sender_dict := assocSet (assocSet st.unicast_sender_dict p { sndtimeo := -1, connected := none }) p { sndtimeo := st.send_timeout, connected := none } },
       some (CommError.PeersConnectionError
        ("Driver cannot connect to " ++ p ++ "! Due to " ++ cause))) := by
    unfold connectEntries
    simp [connectEntryCaught, connectEntry, h, PyExc.toStr]
  constructor
  · rw [connect_cons, hentries]
  · rw [connect_cons, hentries]
    exact assocGet_assocSet_self _ _ _

/-- Witness for C9 at a concrete failing connection. -/
theorem claim_c9_witness :
    (failOracle "tcp://bad" = some "boom") ∧
    ((connect failOracle (initState 700 800) [("pz", [(PULL, "tcp://bad")])]).2 =
      some (CommError.PeersConnectionError
        ("Driver cannot connect to " ++ "pz" ++ "! Due to " ++ "boom")) ∧
     assocGet (connect failOracle (initState 700 800)
        [("pz", [(PULL, "tcp://bad")])]).1.unicast_sender_dict "pz" =
      some { sndtimeo := 700, connected := none }) :=
  ⟨by decide,
    claim_c9_entry_before_connect failOracle (initState 700 800) "pz" "tcp://bad" "boom" []
      (by decide)⟩

/-- Claim C8: in every state reachable by construction followed by any
sequence of `connect`, `send`, `broadcast` and `receive` operations, the
Peer Connection Table's keys are pairwise distinct, and every peer name in
it is associated with exactly one outbound unicast endpoint. -/
theorem claim_c8_table_unique (sendT recvT : Int) (ops : List Op) :
    (keys (runOps sendT recvT ops).unicast_sender_dict).Nodup ∧
    ∀ (name : String) (s1 s2 : UnicastSender),
      (name, s1) ∈ (runOps sendT recvT ops).unicast_sender_dict →
      (name, s2) ∈ (runOps sendT recvT ops).unicast_sender_dict → s1 = s2 := by
  have hstep : ∀ (st : DriverState) (op : Op), (keys st.unicast_sender_dict).Nodup →
      (keys (applyOp st op).unicast_sender_dict).Nodup := by
    intro st op h
    cases op with
    | connectOp oracle peers => exact connect_fst_nodup oracle peers st h
    | sendOp _ _ => exact h
    | broadcastOp _ _ => exact h
    | receiveOp _ => exact h
  have haux : ∀ (l : List Op) (st : DriverState), (keys st.unicast_sender_dict).Nodup →
      (keys (l.foldl applyOp st).unicast_sender_dict).Nodup := by
    intro l
    induction l with
    | nil => intro st h; exact h
    | cons op rest ih => intro st h; exact ih _ (hstep st op h)
  have hnd := haux ops (initState sendT recvT) (by simp [initState, keys])
  exact ⟨hnd, fun name s1 s2 h1 h2 => nodup_keys_unique hnd h1 h2⟩

/-- Witness for C8 at a concrete operation sequence. -/
theorem claim_c8_witness :
    (("p1", ({ sndtimeo := 1000, connected := some "tcp://a" } : UnicastSender)) ∈
      (runOps 1000 2000 opsEx).unicast_sender_dict) ∧
    ({ sndtimeo := 1000, connected := some "tcp://a" } : UnicastSender) =
      { sndtimeo := 1000, connected := some "tcp://a" } :=
  ⟨by decide, (claim_c8_table_unique 1000 2000 opsEx).2 "p1" _ _ (by decide) (by decide)⟩

/-- Claim C1 (code refutation): when the first poll times out with no data
(`ready false false`), `receive` does NOT retry the wait. Line 124's
membership test fails on the empty poll result, so line 128 performs a
BLOCKING `recv_pyobj` on the broadcast receiver. In the environment
`timeoutThenUnicastEnv` — where after the timeout every poll would report
a unicast message ready, but no broadcast message ever arrives — the run
yields nothing, raises nothing, and ends `blocked` with the poll called
exactly once (final counters `{polls := 1, urecvs := 0, brecvs := 0}`),
for any amount of fuel; the unicast message that the claimed retried wait
would have delivered is never received. -/
theorem claim_c1_timeout_blocks :
    receive timeoutThenUnicastEnv true 1000 { polls := 0, urecvs := 0, brecvs := 0 } =
      ([], RunStatus.blocked, { polls := 1, urecvs := 0, brecvs := 0 }) ∧
    timeoutThenUnicastEnv.poll 1 = PollResult.ready true false :=
  ⟨rfl, rfl⟩

/-- Claim C6: in a poll cycle where data is available, if the unicast
inbound endpoint is among the ready sockets the yielded message is the one
read from the unicast receiver; otherwise the yielded message is the one
read from the broadcast receiver — so when both endpoints are ready in the
same cycle the unicast message is yielded first. -/
theorem claim_c6_unicast_precedence (env : RecvEnv) (cont : Bool) (fuel : Nat)
    (s : RecvCounters) (u b : Bool) (hp : env.poll s.polls = .ready u b) :
    (u = true → (receive env cont (fuel + 1) s).1.head? = some (env.unicastRecv s.urecvs)) ∧
    (u = false → ∀ m, env.broadcastRecv s.brecvs = some m →
      (receive env cont (fuel + 1) s).1.head? = some m) := by
  constructor
  · intro hu
    subst hu
    cases cont <;> simp [receive, hp]
  · intro hu m hm
    subst hu
    cases cont <;> simp [receive, hp, hm]

/-- Witness for C6: with both endpoints ready, the unicast message is
yielded first. -/
theorem claim_c6_witness :
    (bothReadyEnv.poll 0 = PollResult.ready true true) ∧
    (receive bothReadyEnv true 1 { polls := 0, urecvs := 0, brecvs := 0 }).1.head? = some msgA :=
  ⟨rfl,
    (claim_c6_unicast_precedence bothReadyEnv true 0
      { polls := 0, urecvs := 0, brecvs := 0 } true true rfl).1 rfl⟩

/-- Claim C7: with `is_continuous = false` the `receive` generator yields
at most one message, and whenever it has yielded one the run has ended via
`break` (status `stopped`); with `is_continuous = true` the run never ends
normally — only fuel exhaustion, a raised `DriverReceiveError`, or
blocking forever can end it. -/
theorem claim_c7_continuous_flag :
    (∀ (env : RecvEnv) (fuel : Nat) (s : RecvCounters),
      (receive env false fuel s).1.length ≤ 1 ∧
      ((receive env false fuel s).1 ≠ [] → (receive env false fuel s).2.1 = .stopped)) ∧
    (∀ (env : RecvEnv) (fuel : Nat) (s : RecvCounters),
      (receive env true fuel s).2.1 ≠ .stopped) := by
  constructor
  · intro env fuel s
    match fuel with
    | 0 => simp [receive]
    | fuel + 1 =>
      cases hp : env.poll s.polls with
      | fail msg => simp [receive, hp]
      | ready u b =>
        cases u with
        | true => simp [receive, hp]
        | false =>
          cases hb : env.broadcastRecv s.brecvs with
          | none => simp [receive, hp, hb]
          | some m => simp [receive, hp, hb]
  · intro env fuel s
    induction fuel generalizing s with
    | zero => simp [receive]
    | succ fuel ih =>
      cases hp : env.poll s.polls with
      | fail msg => simp [receive, hp]
      | ready u b =>
        cases u with
        | true =>
          simp only [receive, hp]
          simpa using ih _
        | false =>
          cases hb : env.broadcastRecv s.brecvs with
          | none => simp [receive, hp, hb]
          | some m =>
            simp only [receive, hp, hb]
            simpa using ih _

/-- Witness for C7 at a concrete environment and fuel. -/
theorem claim_c7_witness :
    (receive bothReadyEnv false 5 { polls := 0, urecvs := 0, brecvs := 0 }).1.length ≤ 1 ∧
    (receive bothReadyEnv true 5 { polls := 0, urecvs := 0, brecvs := 0 }).2.1 ≠
      RunStatus.stopped :=
  ⟨(claim_c7_continuous_flag.1 bothReadyEnv 5 { polls := 0, urecvs := 0, brecvs := 0 }).1,
    claim_c7_continuous_flag.2 bothReadyEnv 5 { polls := 0, urecvs := 0, brecvs := 0 }⟩

/-- Claim C4: `send` signals every failure — an unknown destination (the
dict lookup raises `KeyError`) as well as a failed or timed-out write — by
RETURNING a `DriverSendError` value; the `except Exception` handler makes
raising impossible, and every non-`none` result of `send` or `broadcast`
is a `DriverSendError`. `broadcast` behaves the same for failures of the
broadcast write. -/
theorem claim_c4_send_error_as_value (oracle : SendOracle) (st : DriverState)
    (m : Message) (bOracle : Option String) :
    (assocGet st.unicast_sender_dict m.destination = none →
      send oracle st m = some (CommError.DriverSendError
        ("Failure to send message caused by: " ++ ("'" ++ m.destination ++ "'")))) ∧
    (∀ err, oracle m.destination = some err →
      assocGet st.unicast_sender_dict m.destination ≠ none →
      send oracle st m = some (CommError.DriverSendError
        ("Failure to send message caused by: " ++ err))) ∧
    (∀ e, send oracle st m = some e → ∃ msg, e = CommError.DriverSendError msg) ∧
    (∀ err, bOracle = some err → broadcast bOracle st m =
      some (CommError.DriverSendError ("Failure to broadcast message caused by: " ++ err))) ∧
    (∀ e, broadcast bOracle st m = some e → ∃ msg, e = CommError.DriverSendError msg) := by
  refine ⟨?_, ?_, ?_, ?_, ?_⟩
  · intro h
    simp [send, sendBody, h, PyExc.toStr]
  · intro err herr hGet
    cases hg : assocGet st.unicast_sender_dict m.destination with
    | none => exact absurd hg hGet
    | some sender => simp [send, sendBody, hg, herr, PyExc.toStr]
  · intro e he
    unfold send at he
    cases hsb : sendBody oracle st m with
    | none => rw [hsb] at he; simp at he
    | some e0 =>
      rw [hsb] at he
      simp at he
      exact ⟨_, he.symm⟩
  · intro err herr
    simp [broadcast, herr]
  · intro e he
    unfold broadcast at he
    cases bOracle with
    | none => simp at he
    | some err =>
      simp at he
      exact ⟨_, he.symm⟩

/-- Witness for C4: sending to a destination absent from the table returns
a `DriverSendError` value. -/
theorem claim_c4_witness :
    (assocGet (initState 1000 2000).unicast_sender_dict msgOut.destination = none) ∧
    send okSendOracle (initState 1000 2000) msgOut =
      some (CommError.DriverSendError
        ("Failure to send message caused by: " ++ ("'" ++ msgOut.destination ++ "'"))) :=
  ⟨rfl, (claim_c4_send_error_as_value okSendOracle (initState 1000 2000) msgOut none).1 rfl⟩

/-- Claim C10: when the write succeeds, `send` and `broadcast` fall off
the end of the method and return `None`; the only non-`None` value either
operation ever returns is a `DriverSendError`, so success is distinguished
from failure solely by whether the result is a `DriverSendError`. -/
theorem claim_c10_none_on_success (oracle : SendOracle) (st : DriverState)
    (m : Message) (bOracle : Option String) :
    (assocGet st.unicast_sender_dict m.destination ≠ none → oracle m.destination = none →
      send oracle st m = none) ∧
    (send oracle st m = none ∨
      ∃ msg, send oracle st m = some (CommError.DriverSendError msg)) ∧
    (bOracle = none → broadcast bOracle st m = none) ∧
    (broadcast bOracle st m = none ∨
      ∃ msg, broadcast bOracle st m = some (CommError.DriverSendError msg)) := by
  refine ⟨?_, ?_, ?_, ?_⟩
  · intro hGet hOk
    cases hg : assocGet st.unicast_sender_dict m.destination with
    | none => exact absurd hg hGet
    | some sender => simp [send, sendBody, hg, hOk]
  · cases hg : assocGet st.unicast_sender_dict m.destination with
    | none =>
      refine Or.inr ⟨"Failure to send message caused by: " ++ ("'" ++ m.destination ++ "'"), ?_⟩
      simp [send, sendBody, hg, PyExc.toStr]
    | some sender =>
      cases ho : oracle m.destination with
      | none => exact Or.inl (by simp [send, sendBody, hg, ho])
      | some err =>
        refine Or.inr ⟨"Failure to send message caused by: " ++ err, ?_⟩
        simp [send, sendBody, hg, ho, PyExc.toStr]
  · intro hb
    simp [broadcast, hb]
  · cases bOracle with
    | none => exact Or.inl (by simp [broadcast])
    | some err =>
      refine Or.inr ⟨"Failure to broadcast message caused by: " ++ err, ?_⟩
      simp [broadcast]

/-- Witness for C10: a successful send to a connected peer returns `none`
(Python `None`). -/
theorem claim_c10_witness :
    (assocGet stWithP1.unicast_sender_dict msgOut.destination ≠ none ∧
      okSendOracle msgOut.destination = none) ∧
    send okSendOracle stWithP1 msgOut = none :=
  ⟨⟨by decide, rfl⟩,
    (claim_c10_none_on_success okSendOracle stWithP1 msgOut none).1 (by decide) rfl⟩

end ZmqDriver
